import Mathlib

/-!
Shallow embedding of the shfrp tool (src/shfrp/shfrp.py) and proofs about it.

The embedding models:
* the persisted state document and the `State` operations (`with_data`,
  `get_values`, `set`) together with the `with_json_data` critical section,
* the event-bus messages, `Messages.update`, the subscriber attach/read
  cursor, and `EventBus.wait_for_changes`,
* the `run` loop's output-file handling as a sequence of file-system
  operations, and the `set`/`reset` command dispatch in `main` as a trace of
  store writes and publishes,
* the `ThreadWaiter.wrap` try/finally signalling.

Python dictionaries are modelled as association lists (insertion order
preserved, update-in-place on existing keys, append for new keys), Python
exceptions as an explicit `PyErr` error type threaded through `Except`.
-/

namespace Shfrp

/-- Python exceptions that the modelled code can raise.
`keyError` is a raw `KeyError`, `shfrpNoValue` is the `ShfrpNoValue`
exception (the spec's MissingParameter), `valueError` is `ValueError`,
`connectionLost` is `ConnectionLost`. -/
inductive PyErr where
  | keyError (key : String)
  | shfrpNoValue (key : String)
  | valueError (files : List String)
  | connectionLost
deriving Repr, DecidableEq

/-- Association-list lookup, modelling Python `d[k]` / `d.get(k)`. -/
def alLookup (m : List (String × α)) (k : String) : Option α :=
  match m with
  | [] => none
  | (k2, v) :: rest => if k2 = k then some v else alLookup rest k

/-- Association-list insert/update, modelling Python `d[k] = v` (replace the
existing binding in place, else append at the end). -/
def alInsert (m : List (String × α)) (k : String) (v : α) : List (String × α) :=
  match m with
  | [] => [(k, v)]
  | (k2, v2) :: rest => if k2 = k then (k, v) :: rest else (k2, v2) :: alInsert rest k v

/-- A map from parameter names to current values (`data["parameters"]`). -/
abbrev ParamMap := List (String × String)

/-- A map from parameter names to their value history (`data["parameter.history"]`). -/
abbrev HistMap := List (String × List String)

/-- A map from parameter names to registered listener ids (`data["listened"]`). -/
abbrev ListenMap := List (String × List String)

/-- The persisted JSON state document.  Each field is `Option` because the
corresponding key may be absent from the JSON object; `none` models an
absent key.  The field `paraeters` reproduces, letter for letter, the
misspelled key seeded by `State.with_data`
(`data.setdefault('paraeters', dict())` in the source), which is distinct
from the `parameters` key that `get_values`/`set` actually read. -/
structure Doc where
  listened : Option ListenMap
  paraeters : Option ParamMap
  parameters : Option ParamMap
  parameterHistory : Option HistMap
deriving Repr, DecidableEq

/-- The initial state document: `read_json` on a missing file returns the
empty dict, so every key is absent. -/
def Doc.empty : Doc :=
  { listened := none, paraeters := none, parameters := none, parameterHistory := none }

/-- The `setdefault` calls performed by `State.with_data` before yielding:
they seed `listened`, the misspelled `paraeters`, and `parameter.history`,
but never the correctly spelled `parameters` key. -/
def applyDefaults (d : Doc) : Doc :=
  { d with
    listened := some (d.listened.getD [])
    paraeters := some (d.paraeters.getD [])
    parameterHistory := some (d.parameterHistory.getD []) }

/-- Model of `with_json_data`: under the lock, read the document, run the
body, and rewrite the file with the body's result *only if* the body
returned normally.  If the body raises, control leaves the context manager
through the exception at the `yield`, so the write after the `yield` never
executes and the persisted document is exactly the one read.  The result is
the persisted document after the call, paired with the body's outcome. -/
def withJsonData (body : Doc → Except PyErr (Doc × α)) (store : Doc) :
    Doc × Except PyErr α :=
  match body store with
  | .error e => (store, .error e)
  | .ok (d, a) => (d, .ok a)

/-- Model of `State.with_data`: a `with_json_data` section whose body first
applies the `setdefault` seeding and then runs the caller's body. -/
def withData (body : Doc → Except PyErr (Doc × α)) (store : Doc) :
    Doc × Except PyErr α :=
  withJsonData (fun d => body (applyDefaults d)) store

/-- The dict comprehension in `State.get_values`:
read each requested key from `data["parameters"]` in caller order.  A raised
`KeyError` is caught and re-raised as `ShfrpNoValue` carrying the key from
the `KeyError` — which is the string `"parameters"` itself when the
document has no `parameters` key at all (the comprehension body, and hence
the `data["parameters"]` subscript, runs only when `keys` is nonempty). -/
def getValuesFrom (params : Option ParamMap) : List String → Except PyErr (List (String × String))
  | [] => .ok []
  | k :: rest =>
    match params with
    | none => .error (.shfrpNoValue "parameters")
    | some m =>
      match alLookup m k with
      | none => .error (.shfrpNoValue k)
      | some v => (getValuesFrom params rest).map (fun r => (k, v) :: r)

/-- Model of `State.get_values`: a `with_data` section returning the values
of the requested keys (the document, defaults included, is rewritten on
success, as `with_json_data` always rewrites after a normal return). -/
def State.get_values (keys : List String) (store : Doc) :
    Doc × Except PyErr (List (String × String)) :=
  withData (fun d => (getValuesFrom d.parameters keys).map (fun vs => (d, vs))) store

/-- Python `params.update(**pairs)` on the parameters dict. -/
def updateAll (params : ParamMap) : List (String × String) → ParamMap
  | [] => params
  | (k, v) :: rest => updateAll (alInsert params k v) rest

/-- The history loop of `State.set`:
for each pair, `setdefault(key, [])` then append the value. -/
def appendHist (hist : HistMap) : List (String × String) → HistMap
  | [] => hist
  | (k, v) :: rest => appendHist (alInsert hist k ((alLookup hist k).getD [] ++ [v])) rest

/-- The body of `State.set` inside its `with_data` section: subscripting
`data["parameters"]` raises a bare `KeyError` when the key is absent
(there is no handler in `set`), otherwise the parameters map is updated and
each value appended to its history list. -/
def setBody (pairs : List (String × String)) (d : Doc) : Except PyErr Doc :=
  match d.parameters with
  | none => .error (.keyError "parameters")
  | some m =>
    .ok { d with
      parameters := some (updateAll m pairs)
      parameterHistory := some (appendHist (d.parameterHistory.getD []) pairs) }

/-- Model of `State.set`: a `with_data` section running `setBody`. -/
def State.set (pairs : List (String × String)) (store : Doc) : Doc × Except PyErr Unit :=
  withData (fun d => (setBody pairs d).map (fun d2 => (d2, ()))) store

/-- Decoded event-bus messages, the two dict shapes built by `Messages`.
Python's `time.time()` float timestamp and the uuid ident are modelled as
naturals; `changes` may be absent (the `reset` command passes `None`). -/
inductive Message where
  | parameterUpdate (changes : Option (List (String × String))) (changed : List String)
      (ident : Nat) (timestamp : Nat)
  | fileChange (file : String)
deriving Repr, DecidableEq

/-- The `changed` field of a message (empty for a `file_change`). -/
def Message.changedOf : Message → List String
  | .parameterUpdate _ changed _ _ => changed
  | .fileChange _ => []

/-- The `ident` field of a message (0 for a `file_change`, which has none). -/
def Message.identOf : Message → Nat
  | .parameterUpdate _ _ ident _ => ident
  | .fileChange _ => 0

/-- Model of `Messages.update(changes, changed)`: the message's `changed`
field is `set.union(set(changes) if changes else set(), set(changed) if
changed else set())`.  Python's set union is modelled as list
concatenation of the keys of `changes` with the explicit `changed` names;
only membership in the result is meaningful (a Python set has no
specified order).  The uuid4 ident and the timestamp are taken as
arguments. -/
def Messages.update (changes : Option (List (String × String)))
    (changed : Option (List String)) (ident : Nat) (timestamp : Nat) : Message :=
  Message.parameterUpdate changes
    (((changes.getD []).map Prod.fst) ++ changed.getD []) ident timestamp

/-- Model of `Messages.update` with a fresh-identifier supply: `uuid.uuid4()`
hands out a token never handed out before, modelled as a counter that is
consumed and incremented by each call. -/
def Messages.updateWithFresh (changes : Option (List (String × String)))
    (changed : Option (List String)) (counter : Nat) (timestamp : Nat) : Message × Nat :=
  (Messages.update changes changed counter timestamp, counter + 1)

/-- Model of `os.path.isabs` on POSIX: the path starts with a slash
(stated on the character list of the string). -/
def isAbsPath (s : String) : Bool :=
  match s.data with
  | [] => false
  | c :: _ => c = '/'

/-- The match test of the `wait_for_changes` message loop: a `file_change`
matches when its file is in `files`; a `parameter_update` matches when its
`changed` set intersects `vars`. -/
def matchesMsg (vars files : List String) : Message → Bool
  | .fileChange f => files.contains f
  | .parameterUpdate _ changed _ _ => changed.any (fun c => vars.contains c)

/-- The `for message in self._client.get_messages()` loop of
`wait_for_changes`: consume messages until one matches and return (the
unconsumed remainder is reported, with how many messages were consumed);
when the stream ends without a match, the loop's `else` raises
`ConnectionLost`. -/
def waitGo (vars files : List String) : List Message → Nat × Except PyErr (List Message)
  | [] => (0, .error .connectionLost)
  | m :: rest =>
    if matchesMsg vars files m then (1, .ok rest)
    else
      let r := waitGo vars files rest
      (r.1 + 1, r.2)

/-- Model of `EventBus.wait_for_changes(vars, files)` over the
subscriber's (lazily decoded) message sequence `msgs`.  Before any message
is consumed, every entry of `files` is checked with `os.path.isabs`; a
nonempty list of non-absolute entries raises `ValueError` carrying that
list.  The result pairs the number of consumed messages with the
outcome (the remaining stream on a match). -/
def wait_for_changes (vars files : List String) (msgs : List Message) :
    Nat × Except PyErr (List Message) :=
  let nonAbs := files.filter (fun f => !(isAbsPath f))
  if nonAbs.isEmpty then waitGo vars files msgs
  else (0, .error (.valueError nonAbs))

/-- Model of `StupidPubSub._Client.start`: the subscriber attaches a
`tail -f <event_file> -n 0` at the current end of the event log, so its
read cursor is the number of messages already in the log. -/
def attachCursor (log : List Message) : Nat := log.length

/-- Model of `StupidPubSub._Client.get_messages` against a log snapshot:
the decoded messages a subscriber with the given cursor observes are the
log entries from its cursor on, in append order. -/
def messagesFrom (log : List Message) (cursor : Nat) : List Message := log.drop cursor

/-- Model of `StupidPubSub.Publisher.push`: append one serialized message
to the event log. -/
def publisherPush (log : List Message) (m : Message) : List Message := log ++ [m]

/-- The file-system-visible steps of one `run_loop` iteration when an
output file is configured (`args.output is not None`), in source order:
the iteration first evaluates `open(args.output, 'w')` (building the
unused `file_manager`), then spawns the process, buffers its whole output
via `communicate`, writes it to a named temporary file, and finally
`os.rename`s the temporary file onto the output path. -/
inductive FsOp where
  | openTruncate (path : String)
  | spawnProcess
  | bufferOutput (content : String)
  | writeTempFile (path : String) (content : String)
  | renameInto (tempPath : String) (destPath : String) (content : String)
deriving Repr, DecidableEq

/-- The operation sequence of one output-file iteration of `run_loop`. -/
def runLoopOutputOps (outPath tmpPath cmdOutput : String) : List FsOp :=
  [ .openTruncate outPath
  , .spawnProcess
  , .bufferOutput cmdOutput
  , .writeTempFile tmpPath cmdOutput
  , .renameInto tmpPath outPath cmdOutput ]

/-- Effect of one file-system step on the content of the output path:
`open(path, 'w')` truncates it to empty, the atomic `os.rename` replaces it
with the full renamed content, every other step leaves it unchanged. -/
def applyFsOp (outPath : String) (cur : String) : FsOp → String
  | .openTruncate p => if p = outPath then "" else cur
  | .renameInto _ dest content => if dest = outPath then content else cur
  | _ => cur

/-- The contents of the output file a concurrent reader can observe during
one output-file iteration: the content before the iteration and after each
step. -/
def outputObservations (outPath tmpPath old cmdOutput : String) : List String :=
  (runLoopOutputOps outPath tmpPath cmdOutput).scanl (applyFsOp outPath) old

/-- One step of the `set`/`reset` dispatch in `main`, for the event trace. -/
inductive Ev where
  | storeWrite (d : Doc)
  | publish (m : Message)
deriving Repr, DecidableEq

/-- Whether a trace step is a write of the persisted state document. -/
def Ev.isStoreWrite : Ev → Bool
  | .storeWrite _ => true
  | .publish _ => false

/-- The two mutating subcommands dispatched by `main`. -/
inductive Cmd where
  | set (key value : String)
  | reset (parameter : String)
deriving Repr, DecidableEq

/-- Model of the `set`/`reset` branch of `main`: for `set`, the state
document is written through `state.set` and then a `parameter_update`
message built by `Messages.update(changes)` is published; if `state.set`
raises, the exception propagates and nothing is published.  For `reset`,
no `State` method is called at all — the branch only builds
`Messages.update(None, changed=[parameter])` and publishes it.  The result
is the final store plus the ordered trace of document writes and
publishes. -/
def mainSetReset (c : Cmd) (store : Doc) (ident timestamp : Nat) : Doc × List Ev :=
  match c with
  | .set key value =>
    let changes := [(key, value)]
    let r := State.set changes store
    match r.2 with
    | .error _ => (r.1, [])
    | .ok _ =>
      (r.1, [ Ev.storeWrite r.1
            , Ev.publish (Messages.update (some changes) none ident timestamp) ])
  | .reset p =>
    (store, [Ev.publish (Messages.update none (some [p]) ident timestamp)])

/-- Signal operations performed by `ThreadWaiter.wrap`'s `finally` block. -/
inductive SigEv where
  | setPerTask
  | setShared
deriving Repr, DecidableEq

/-- Model of `ThreadWaiter.wrap(event, func, ...)`: run the operation —
whose outcome, normal return or raised exception, is the argument — and,
in the `finally` block, set the per-task event and then the shared
any-task-done event.  The result is the operation's outcome together with
the ordered trace of signal operations performed. -/
def ThreadWaiter.wrap (outcome : Except PyErr α) : Except PyErr α × List SigEv :=
  match outcome with
  | .ok a => (.ok a, [.setPerTask, .setShared])
  | .error e => (.error e, [.setPerTask, .setShared])

/-- Model of `ThreadWaiter.wait`: it is unblocked exactly when the shared
event has been set. -/
def ThreadWaiter.waitUnblocked (trace : List SigEv) : Bool :=
  trace.contains .setShared

/-- A store whose document already carries a (here empty) `parameters` map:
the shape `set` and `get_values` need in order to succeed. -/
def docWithParams : Doc := { Doc.empty with parameters := some [] }

/-- A concrete message stream for instantiating the wait-loop theorems:
one non-matching file change followed by a matching parameter update. -/
def demoMsgs : List Message :=
  [Message.fileChange "/other", Message.parameterUpdate none ["x"] 5 7]

/-! ### Helper lemmas -/

theorem alLookup_alInsert_self (m : List (String × α)) (k : String) (v : α) :
    alLookup (alInsert m k v) k = some v := by
  induction m with
  | nil => simp [alInsert, alLookup]
  | cons hd tl ih =>
    obtain ⟨k2, v2⟩ := hd
    by_cases h : k2 = k
    · simp [alInsert, alLookup, h]
    · simp [alInsert, alLookup, h, ih]

theorem applyDefaults_parameters (d : Doc) : (applyDefaults d).parameters = d.parameters := rfl

theorem State.set_of_params (store : Doc) (m : ParamMap) (pairs : List (String × String))
    (hp : store.parameters = some m) :
    State.set pairs store =
      ({ applyDefaults store with
          parameters := some (updateAll m pairs)
          parameterHistory := some (appendHist (store.parameterHistory.getD []) pairs) },
        .ok ()) := by
  simp [State.set, withData, withJsonData, setBody, applyDefaults, hp, Except.map]

theorem State.get_values_single (store : Doc) (m : ParamMap) (k v : String)
    (hp : store.parameters = some m) (hv : alLookup m k = some v) :
    (State.get_values [k] store).2 = .ok [(k, v)] := by
  simp [State.get_values, withData, withJsonData, getValuesFrom, applyDefaults, hp, hv, Except.map]

/-- Supporting result (the intent behind `set`): on a store whose document
does carry a `parameters` map, `set` succeeds, a following `get_values`
returns the pair, and the key's history ends with the value. -/
theorem set_then_get_roundtrip (store : Doc) (m : ParamMap) (P V : String)
    (hp : store.parameters = some m) :
    (State.set [(P, V)] store).2 = .ok ()
    ∧ (State.get_values [P] (State.set [(P, V)] store).1).2 = .ok [(P, V)]
    ∧ ((alLookup (((State.set [(P, V)] store).1).parameterHistory.getD []) P).getD []).getLast?
        = some V := by
  have hs := State.set_of_params store m [(P, V)] hp
  refine ⟨by simp [hs], ?_, ?_⟩
  · refine State.get_values_single _ (updateAll m [(P, V)]) P V (by simp [hs]) ?_
    simp [updateAll, alLookup_alInsert_self]
  · simp [hs, appendHist, alLookup_alInsert_self]

/-! ### Claim theorems -/

/-- C1: the claim says that from any store state, including the initial
empty document, `set(\x7bP: V\x7d)` completes and a following
`get_values([P])` returns the pair with the history ending in V.  On the
initial empty document the code instead raises a bare
`KeyError('parameters')`, because `with_data` seeds the misspelled key
`paraeters` and `set` subscripts the absent `parameters` key; the document
is not even written.  This theorem evaluates the model at that failing
input. -/
theorem set_on_empty_store_raises_key_error :
    State.set [("x", "hello")] Doc.empty = (Doc.empty, .error (.keyError "parameters")) := rfl

/-- C4: the claim says `get_values(keys)` names the first requested key
without a value.  On any document with no `parameters` key at all — in
particular the initial empty document — the `KeyError` that is wrapped
into `ShfrpNoValue` carries the string `parameters` itself, not the
requested key `x`. -/
theorem get_values_on_empty_store_names_wrong_key :
    State.get_values ["x"] Doc.empty = (Doc.empty, .error (.shfrpNoValue "parameters"))
    ∧ PyErr.shfrpNoValue "parameters" ≠ PyErr.shfrpNoValue "x" :=
  ⟨rfl, by decide⟩

/-- C9: if the body of a `with_json_data` critical section raises, the
persisted state document is not rewritten: the store after the call is
exactly the store before it. -/
theorem with_json_data_error_keeps_store (body : Doc → Except PyErr (Doc × α))
    (store : Doc) (e : PyErr) (h : body store = .error e) :
    (withJsonData body store).1 = store := by
  simp [withJsonData, h]

/-- Witness for C9: the failing `get_values(["x"])` body on the empty store
leaves the document untouched. -/
theorem with_json_data_error_keeps_store_witness :
    (withJsonData
      (fun d => (getValuesFrom (applyDefaults d).parameters ["x"]).map
        (fun vs => (applyDefaults d, vs)))
      Doc.empty).1 = Doc.empty :=
  with_json_data_error_keeps_store _ Doc.empty (.shfrpNoValue "parameters") rfl

/-- C2: the claim says the output file is never observable as truncated or
partially written during an iteration.  But the iteration's very first
file-system step is the evaluation of the unused
`file_manager = open(args.output, 'w')`, which truncates the output file;
between that step and the final atomic rename a concurrent reader observes
an empty file, which is neither the previous content nor the new output.
This theorem evaluates the observable-contents sequence at such an
iteration (previous content abc, new output xyz). -/
theorem run_loop_truncation_window :
    "" ∈ outputObservations "/tmp/out" "/tmp/work" "abc" "xyz"
    ∧ "" ≠ "abc" ∧ "" ≠ "xyz" := by
  refine ⟨?_, by decide, by decide⟩
  simp [outputObservations, runLoopOutputOps, List.scanl, applyFsOp]

theorem publisherPush_foldl (published later : List Message) :
    later.foldl publisherPush published = published ++ later := by
  induction later generalizing published with
  | nil => simp
  | cons hd tl ih => simp [publisherPush, ih]

/-- C5: a subscriber that attaches when `published` is the event log (its
`tail -n 0` cursor sits at end-of-file) and then watches while the `later`
messages are pushed decodes exactly the `later` messages, in append order:
no message published before attachment is ever delivered to it. -/
theorem subscriber_sees_only_post_attach (published later : List Message) :
    messagesFrom (later.foldl publisherPush published) (attachCursor published) = later := by
  rw [publisherPush_foldl]
  simp [messagesFrom, attachCursor]

/-- C6 counterexample: the claim says `reset`, like `set`, writes the
persisted document before its notification is published.  The `reset`
branch of `main` produces no store write at all: its whole trace is a
single publish, and no step of it is a write of the state document. -/
theorem reset_does_not_write_store :
    mainSetReset (Cmd.reset "x") Doc.empty 0 0 =
      (Doc.empty, [Ev.publish (Messages.update none (some ["x"]) 0 0)])
    ∧ (mainSetReset (Cmd.reset "x") Doc.empty 0 0).2.any Ev.isStoreWrite = false :=
  ⟨rfl, rfl⟩

/-- C6 (amended): `set` writes the Parameter Store and then publishes a
`parameter_update`, as two separate non-transactional steps; `reset` does
not touch the store at all — it only publishes a `parameter_update` whose
changed set names the parameter. -/
theorem set_writes_then_publishes (key value p : String) (store : Doc) (m : ParamMap)
    (i t : Nat) (hp : store.parameters = some m) :
    (mainSetReset (.set key value) store i t).2 =
      [ Ev.storeWrite (mainSetReset (.set key value) store i t).1
      , Ev.publish (Messages.update (some [(key, value)]) none i t) ]
    ∧ mainSetReset (.reset p) store i t =
        (store, [Ev.publish (Messages.update none (some [p]) i t)]) := by
  constructor
  · have hs := State.set_of_params store m [(key, value)] hp
    simp [mainSetReset, hs]
  · rfl

/-- Witness for the amended C6 at a concrete store carrying a `parameters`
map. -/
theorem set_writes_then_publishes_witness :
    (mainSetReset (.set "x" "v") docWithParams 1 2).2 =
      [ Ev.storeWrite (mainSetReset (.set "x" "v") docWithParams 1 2).1
      , Ev.publish (Messages.update (some [("x", "v")]) none 1 2) ]
    ∧ mainSetReset (.reset "y") docWithParams 1 2 =
        (docWithParams, [Ev.publish (Messages.update none (some ["y"]) 1 2)]) :=
  set_writes_then_publishes "x" "v" "y" docWithParams [] 1 2 rfl

/-- C8: whatever the outcome of the spawned operation — normal return or a
raised exception — `ThreadWaiter.wrap` preserves the outcome and its
`finally` block sets the per-task signal and the shared any-task-done
signal exactly once each, so a `wait` on the shared signal is unblocked as
soon as the first spawned operation finishes. -/
theorem thread_waiter_signals (outcome : Except PyErr α) :
    (ThreadWaiter.wrap outcome).1 = outcome
    ∧ (ThreadWaiter.wrap outcome).2.count .setPerTask = 1
    ∧ (ThreadWaiter.wrap outcome).2.count .setShared = 1
    ∧ ThreadWaiter.waitUnblocked (ThreadWaiter.wrap outcome).2 = true := by
  cases outcome <;> exact ⟨rfl, rfl, rfl, rfl⟩

/-- C10: the `changed` field of every message built by `Messages.update`
contains exactly the union of the keys of `changes` and the explicitly
passed `changed` names; the message the `set` command publishes for key K
has K in its changed set; the ident is the freshly drawn token, and two
successive draws from the fresh-token supply never coincide. -/
theorem messages_update_changed_union (changes changes2 : Option (List (String × String)))
    (changed changed2 : Option (List String)) (i t t2 : Nat) :
    (∀ x, x ∈ (Messages.update changes changed i t).changedOf ↔
        (x ∈ (changes.getD []).map Prod.fst ∨ x ∈ changed.getD []))
    ∧ (∀ K V : String, K ∈ (Messages.update (some [(K, V)]) none i t).changedOf)
    ∧ (Messages.update changes changed i t).identOf = i
    ∧ (Messages.updateWithFresh changes changed i t).1.identOf ≠
        (Messages.updateWithFresh changes2 changed2
          (Messages.updateWithFresh changes changed i t).2 t2).1.identOf := by
  refine ⟨?_, ?_, rfl, ?_⟩
  · intro x
    simp [Messages.update, Message.changedOf]
  · intro K V
    simp [Messages.update, Message.changedOf]
  · simp [Messages.updateWithFresh, Messages.update, Message.identOf]

theorem waitGo_ok_iff (vars files : List String) (msgs : List Message) :
    (∃ r, (waitGo vars files msgs).2 = .ok r) ↔ ∃ m ∈ msgs, matchesMsg vars files m = true := by
  induction msgs with
  | nil => simp [waitGo]
  | cons hd tl ih =>
    cases hm : matchesMsg vars files hd with
    | true => simp [waitGo, hm]
    | false => simp [waitGo, hm, ih]

theorem waitGo_decomp (vars files : List String) (msgs r : List Message)
    (h : (waitGo vars files msgs).2 = .ok r) :
    ∃ pre m, msgs = pre ++ m :: r ∧ matchesMsg vars files m = true
      ∧ ∀ p ∈ pre, matchesMsg vars files p = false := by
  induction msgs with
  | nil => simp [waitGo] at h
  | cons hd tl ih =>
    cases hm : matchesMsg vars files hd with
    | true =>
      rw [waitGo, if_pos hm] at h
      have htl : tl = r := by simpa using h
      exact ⟨[], hd, by simp [htl], hm, by simp⟩
    | false =>
      rw [waitGo, if_neg (by simp [hm])] at h
      obtain ⟨pre, m, hEq, hm2, hpre⟩ := ih h
      refine ⟨hd :: pre, m, by simp [hEq], hm2, ?_⟩
      intro p hp
      rcases List.mem_cons.mp hp with rfl | hp2
      · exact hm
      · exact hpre p hp2

theorem waitGo_none (vars files : List String) (msgs : List Message)
    (h : ∀ m ∈ msgs, matchesMsg vars files m = false) :
    (waitGo vars files msgs).2 = .error .connectionLost := by
  induction msgs with
  | nil => rfl
  | cons hd tl ih =>
    rw [waitGo, if_neg (by simp [h hd (by simp)])]
    exact ih (fun m hm => h m (by simp [hm]))

theorem waitGo_no_value_error (vars files : List String) (msgs : List Message)
    (l : List String) :
    (waitGo vars files msgs).2 ≠ .error (.valueError l) := by
  induction msgs with
  | nil => simp [waitGo]
  | cons hd tl ih =>
    cases hm : matchesMsg vars files hd with
    | true => simp [waitGo, hm]
    | false => simpa [waitGo, hm] using ih

/-- C3: over the subscriber's message sequence, and with all watched file
paths absolute, `wait_for_changes` returns normally exactly when the
sequence contains a matching message (a `parameter_update` intersecting
the names or a `file_change` of a watched file); on return it has consumed
precisely the non-matching messages before the first match plus the match
itself, discarding them; and when no message matches it fails with
`ConnectionLost`. -/
theorem wait_for_changes_match_spec (vars files : List String) (msgs : List Message)
    (habs : ∀ f ∈ files, isAbsPath f = true) :
    ((∃ r, (wait_for_changes vars files msgs).2 = .ok r) ↔
      ∃ m ∈ msgs, matchesMsg vars files m = true)
    ∧ (∀ r, (wait_for_changes vars files msgs).2 = .ok r →
        ∃ pre m, msgs = pre ++ m :: r ∧ matchesMsg vars files m = true
          ∧ ∀ p ∈ pre, matchesMsg vars files p = false)
    ∧ ((∀ m ∈ msgs, matchesMsg vars files m = false) →
        (wait_for_changes vars files msgs).2 = .error .connectionLost) := by
  have hw : wait_for_changes vars files msgs = waitGo vars files msgs := by
    have hfilter : files.filter (fun f => !(isAbsPath f)) = [] := by
      rw [List.filter_eq_nil_iff]
      intro f hf
      simp [habs f hf]
    simp [wait_for_changes, hfilter]
  rw [hw]
  exact ⟨waitGo_ok_iff vars files msgs,
    fun r h => waitGo_decomp vars files msgs r h,
    waitGo_none vars files msgs⟩

/-- Witness for C3 on a concrete stream: a non-matching file change
followed by a parameter update that names x. -/
theorem wait_for_changes_match_spec_witness :
    ((∃ r, (wait_for_changes ["x"] ["/f"] demoMsgs).2 = .ok r) ↔
      ∃ m ∈ demoMsgs, matchesMsg ["x"] ["/f"] m = true)
    ∧ (∀ r, (wait_for_changes ["x"] ["/f"] demoMsgs).2 = .ok r →
        ∃ pre m, demoMsgs = pre ++ m :: r ∧ matchesMsg ["x"] ["/f"] m = true
          ∧ ∀ p ∈ pre, matchesMsg ["x"] ["/f"] p = false)
    ∧ ((∀ m ∈ demoMsgs, matchesMsg ["x"] ["/f"] m = false) →
        (wait_for_changes ["x"] ["/f"] demoMsgs).2 = .error .connectionLost) :=
  wait_for_changes_match_spec ["x"] ["/f"] demoMsgs (by decide)

/-- C7: when some entry of `files` is not an absolute path,
`wait_for_changes` fails immediately with a `ValueError` naming the
offending entries, with zero messages of the subscriber stream consumed;
when every entry is absolute, no `ValueError` is ever raised. -/
theorem wait_for_changes_abs_check (vars files : List String) (msgs : List Message) :
    ((∃ f ∈ files, isAbsPath f = false) →
      wait_for_changes vars files msgs =
        (0, .error (.valueError (files.filter (fun f => !(isAbsPath f))))))
    ∧ ((∀ f ∈ files, isAbsPath f = true) →
        ∀ l, (wait_for_changes vars files msgs).2 ≠ .error (.valueError l)) := by
  constructor
  · rintro ⟨f, hf, habs⟩
    have hne : files.filter (fun f => !(isAbsPath f)) ≠ [] := by
      intro hnil
      have := List.filter_eq_nil_iff.mp hnil f hf
      simp [habs] at this
    simp [wait_for_changes, List.isEmpty_iff, hne]
  · intro habs l
    have hfilter : files.filter (fun f => !(isAbsPath f)) = [] := by
      rw [List.filter_eq_nil_iff]
      intro f hf
      simp [habs f hf]
    simpa [wait_for_changes, hfilter] using waitGo_no_value_error vars files msgs l

/-- Witness for C7: a relative watch path makes the call fail at once,
before any message is consumed. -/
theorem wait_for_changes_abs_check_witness :
    wait_for_changes ["x"] ["rel/path"] demoMsgs = (0, .error (.valueError ["rel/path"])) := by
  rw [(wait_for_changes_abs_check ["x"] ["rel/path"] demoMsgs).1 (by decide)]
  rfl

end Shfrp


